import Mathlib

/-!
Verification of the enhanced camera controls package (momentum wheel zoom,
instant proximity-based wheel zoom, and raycast-based orbit pivot selection).

The development shallowly embeds the TypeScript sources:
  - the momentum strategy wheel handler, its animation step and the
    scene-scale calibration utility (smoothWheelControl, momentum variant);
  - the instant + proximity strategy wheel handler and its throttled
    raycast routine (smoothWheelControl, cached-raycast variant);
  - the mouse orbit control handlers and the standalone orbit point utility
    (mouseOrbitControl).

Real numbers of the source are modelled as rationals; times as integers.
Decimal literals such as 0.9 denote the exact rational 9/10.
-/

/-- Three-dimensional vector over the rationals, modelling THREE.Vector3. -/
structure Vec3 where
  x : ℚ
  y : ℚ
  z : ℚ
deriving DecidableEq, Repr

/-- Model of THREE.Vector3.addScaledVector: componentwise v + d * s. -/
def Vec3.addScaledVector (v d : Vec3) (s : ℚ) : Vec3 :=
  ⟨v.x + d.x * s, v.y + d.y * s, v.z + d.z * s⟩

/-- Componentwise vector subtraction, used to state view-direction preservation. -/
def Vec3.sub (a b : Vec3) : Vec3 :=
  ⟨a.x - b.x, a.y - b.y, a.z - b.z⟩

/-- Model of THREE.MathUtils.lerp x y t = x + (y - x) * t. -/
def lerp (x y t : ℚ) : ℚ := x + (y - x) * t

/-! ### Momentum strategy (smoothWheelControl, momentum variant) -/

/-- Configuration of the momentum wheel strategy, fields as in
SmoothWheelControlConfig of the momentum variant. -/
structure MomentumConfig where
  velocityDecay : ℚ
  velocityTimeout : ℤ
  velocityDivisor : ℚ
  maxVelocityMultiplier : ℚ
  smoothing : ℚ
  stepAccumulation : ℚ
  shiftBoost : ℚ
  fineModifier : ℚ
deriving Repr

/-- Default configuration of the momentum variant. -/
def defaultMomentumConfig : MomentumConfig :=
  { velocityDecay := 0.9
    velocityTimeout := 150
    velocityDivisor := 200
    maxVelocityMultiplier := 5
    smoothing := 0.15
    stepAccumulation := 0.3
    shiftBoost := 3
    fineModifier := 0.1 }

/-- A wheel event: timestamp (Date.now), signed scroll delta, modifier keys. -/
structure WheelEvt where
  time : ℤ
  deltaY : ℚ
  shiftKey : Bool
  altKey : Bool
  ctrlKey : Bool
  metaKey : Bool
deriving DecidableEq, Repr

/-- Mutable state of the momentum wheel controller that the wheel handler
touches: lastWheelTime, wheelVelocity and targetStep. -/
structure MomentumState where
  lastWheelTime : ℤ
  wheelVelocity : ℚ
  targetStep : ℚ
deriving DecidableEq, Repr

/-- Initial state of a freshly created momentum controller. -/
def initMomentumState : MomentumState :=
  { lastWheelTime := 0, wheelVelocity := 0, targetStep := 0 }

/-- State update performed by the momentum wheelHandler on one wheel event:
elapsed time test against velocityTimeout (reset versus decay), accumulation
of the absolute scroll delta, velocity multiplier capped at
maxVelocityMultiplier, signed step with shift and fine modifiers, and the
blend of the pending target step. -/
def momentumWheelUpdate (cfg : MomentumConfig) (base : ℚ)
    (s : MomentumState) (e : WheelEvt) : MomentumState :=
  let timeSinceLastWheel : ℤ := e.time - s.lastWheelTime
  let v0 : ℚ := if timeSinceLastWheel > cfg.velocityTimeout then 0
                else s.wheelVelocity * cfg.velocityDecay
  let wheelVelocity : ℚ := v0 + |e.deltaY|
  let velocityMultiplier : ℚ :=
    min (1 + wheelVelocity / cfg.velocityDivisor) cfg.maxVelocityMultiplier
  let boost : ℚ := if e.shiftKey then cfg.shiftBoost else 1
  let fine : ℚ := if e.altKey || e.ctrlKey || e.metaKey then cfg.fineModifier else 1
  let sign : ℚ := if e.deltaY < 0 then 1 else -1
  let step : ℚ := sign * base * boost * fine * velocityMultiplier
  { lastWheelTime := e.time
    wheelVelocity := wheelVelocity
    targetStep := s.targetStep * cfg.stepAccumulation + step }

/-- Runs the momentum wheel handler over a sequence of wheel events. -/
def runMomentumWheel (cfg : MomentumConfig) (base : ℚ)
    (s : MomentumState) (es : List WheelEvt) : MomentumState :=
  es.foldl (momentumWheelUpdate cfg base) s

theorem runMomentumWheel_append (cfg : MomentumConfig) (base : ℚ)
    (s : MomentumState) (es : List WheelEvt) (e : WheelEvt) :
    runMomentumWheel cfg base s (es ++ [e]) =
      momentumWheelUpdate cfg base (runMomentumWheel cfg base s es) e := by
  simp [runMomentumWheel, List.foldl_append]

/-- C1. Momentum velocity recurrence: over any sequence of wheel events, if
the gap between event n and the previous event is at most the velocity reset
timeout, the accumulated velocity after event n equals the previous velocity
times the decay factor plus the absolute scroll delta; if the gap exceeds the
timeout, the new accumulated velocity equals the absolute scroll delta. -/
theorem momentum_velocity_recurrence (cfg : MomentumConfig) (base : ℚ)
    (s0 : MomentumState) (es : List WheelEvt) (e : WheelEvt) :
    (e.time - (runMomentumWheel cfg base s0 es).lastWheelTime ≤ cfg.velocityTimeout →
      (runMomentumWheel cfg base s0 (es ++ [e])).wheelVelocity =
        (runMomentumWheel cfg base s0 es).wheelVelocity * cfg.velocityDecay + |e.deltaY|) ∧
    (e.time - (runMomentumWheel cfg base s0 es).lastWheelTime > cfg.velocityTimeout →
      (runMomentumWheel cfg base s0 (es ++ [e])).wheelVelocity = |e.deltaY|) := by
  rw [runMomentumWheel_append]
  constructor
  · intro h
    simp [momentumWheelUpdate, if_neg (not_lt.2 h)]
  · intro h
    simp [momentumWheelUpdate, if_pos h]

/-- Concrete instance of the momentum velocity recurrence: a second event
100 ms after the first decays and accumulates, an event 200 ms after the
previous one resets to the absolute delta. -/
theorem momentum_velocity_recurrence_witness :
    ((runMomentumWheel defaultMomentumConfig 0.2 initMomentumState
        ([⟨1000, -3, false, false, false, false⟩] ++ [⟨1100, 5, false, false, false, false⟩])).wheelVelocity =
      (runMomentumWheel defaultMomentumConfig 0.2 initMomentumState
        [⟨1000, -3, false, false, false, false⟩]).wheelVelocity * (0.9 : ℚ) + |(5 : ℚ)|) ∧
    ((runMomentumWheel defaultMomentumConfig 0.2 initMomentumState
        ([⟨1000, -3, false, false, false, false⟩] ++ [⟨1300, 5, false, false, false, false⟩])).wheelVelocity =
      |(5 : ℚ)|) := by
  constructor
  · exact (momentum_velocity_recurrence defaultMomentumConfig 0.2 initMomentumState
      [⟨1000, -3, false, false, false, false⟩] ⟨1100, 5, false, false, false, false⟩).1 (by decide)
  · exact (momentum_velocity_recurrence defaultMomentumConfig 0.2 initMomentumState
      [⟨1000, -3, false, false, false, false⟩] ⟨1300, 5, false, false, false, false⟩).2 (by decide)

/-! ### Instant + proximity strategy: speed factor -/

/-- Proximity sub-configuration of the instant wheel strategy, fields as in
SmoothWheelControlConfig of the instant variants. -/
structure ProximityConfig where
  proximitySlowdown : Bool
  proximitySlowDistance : ℚ
  proximityNormalDistance : ℚ
  proximityFastDistance : ℚ
  proximityMinSpeed : ℚ
  proximityMaxSpeed : ℚ
deriving DecidableEq, Repr

/-- Piecewise-linear proximity speed factor computed from an intersection
distance, as in the distance branch of the instant wheelHandler and of
performRaycast (both variants share the identical branch structure). -/
def proximitySpeedFactor (cfg : ProximityConfig) (distance : ℚ) : ℚ :=
  if distance < cfg.proximitySlowDistance then
    lerp cfg.proximityMinSpeed 1 (distance / cfg.proximitySlowDistance)
  else if distance < cfg.proximityNormalDistance then 1
  else if distance < cfg.proximityFastDistance then
    lerp 1 cfg.proximityMaxSpeed
      ((distance - cfg.proximityNormalDistance) /
        (cfg.proximityFastDistance - cfg.proximityNormalDistance))
  else cfg.proximityMaxSpeed

theorem psf_eval_slow (b : Bool) (slow normal fast minS maxS d : ℚ)
    (hd : d < slow) :
    proximitySpeedFactor ⟨b, slow, normal, fast, minS, maxS⟩ d =
      lerp minS 1 (d / slow) := by
  simp [proximitySpeedFactor, hd]

theorem psf_eval_normal (b : Bool) (slow normal fast minS maxS d : ℚ)
    (h1 : slow ≤ d) (h2 : d < normal) :
    proximitySpeedFactor ⟨b, slow, normal, fast, minS, maxS⟩ d = 1 := by
  simp [proximitySpeedFactor, not_lt.2 h1, h2]

theorem psf_eval_fast (b : Bool) (slow normal fast minS maxS d : ℚ)
    (hsn : slow < normal) (h1 : normal ≤ d) (h2 : d < fast) :
    proximitySpeedFactor ⟨b, slow, normal, fast, minS, maxS⟩ d =
      lerp 1 maxS ((d - normal) / (fast - normal)) := by
  have hs : ¬ d < slow := not_lt.2 (by linarith)
  simp [proximitySpeedFactor, hs, not_lt.2 h1, h2]

theorem psf_eval_max (b : Bool) (slow normal fast minS maxS d : ℚ)
    (hsn : slow < normal) (hnf : normal < fast) (h1 : fast ≤ d) :
    proximitySpeedFactor ⟨b, slow, normal, fast, minS, maxS⟩ d = maxS := by
  have hs : ¬ d < slow := not_lt.2 (by linarith)
  have hn : ¬ d < normal := not_lt.2 (by linarith)
  simp [proximitySpeedFactor, hs, hn, not_lt.2 h1]

theorem lerp_slow_le_one (minS slow d : ℚ) (h0 : 0 < slow) (hmin : minS ≤ 1)
    (hd : d < slow) : lerp minS 1 (d / slow) ≤ 1 := by
  have ht : d / slow < 1 := (div_lt_one h0).2 hd
  have h1 : (0 : ℚ) ≤ 1 - minS := by linarith
  unfold lerp
  nlinarith [mul_le_mul_of_nonneg_left ht.le h1]

theorem lerp_slow_mono (minS slow d₁ d₂ : ℚ) (h0 : 0 < slow) (hmin : minS ≤ 1)
    (h12 : d₁ ≤ d₂) : lerp minS 1 (d₁ / slow) ≤ lerp minS 1 (d₂ / slow) := by
  have ht : d₁ / slow ≤ d₂ / slow := by gcongr
  have h1 : (0 : ℚ) ≤ 1 - minS := by linarith
  unfold lerp
  nlinarith [mul_le_mul_of_nonneg_left ht h1]

theorem one_le_lerp_fast (maxS normal fast d : ℚ) (hnf : normal < fast)
    (hmax : 1 ≤ maxS) (hd : normal ≤ d) :
    1 ≤ lerp 1 maxS ((d - normal) / (fast - normal)) := by
  have ht : 0 ≤ (d - normal) / (fast - normal) :=
    div_nonneg (by linarith) (by linarith)
  unfold lerp
  nlinarith [mul_nonneg (by linarith : (0 : ℚ) ≤ maxS - 1) ht]

theorem lerp_fast_le_max (maxS normal fast d : ℚ) (hnf : normal < fast)
    (hmax : 1 ≤ maxS) (hd : d < fast) :
    lerp 1 maxS ((d - normal) / (fast - normal)) ≤ maxS := by
  have ht : (d - normal) / (fast - normal) < 1 :=
    (div_lt_one (by linarith)).2 (by linarith)
  unfold lerp
  nlinarith [mul_le_mul_of_nonneg_left ht.le (by linarith : (0 : ℚ) ≤ maxS - 1)]

theorem lerp_fast_mono (maxS normal fast d₁ d₂ : ℚ) (hnf : normal < fast)
    (hmax : 1 ≤ maxS) (h12 : d₁ ≤ d₂) :
    lerp 1 maxS ((d₁ - normal) / (fast - normal)) ≤
      lerp 1 maxS ((d₂ - normal) / (fast - normal)) := by
  have hpos : (0 : ℚ) < fast - normal := by linarith
  have ht : (d₁ - normal) / (fast - normal) ≤ (d₂ - normal) / (fast - normal) := by
    gcongr
  unfold lerp
  nlinarith [mul_le_mul_of_nonneg_left ht (by linarith : (0 : ℚ) ≤ maxS - 1)]

theorem psf_le_one_of_lt_normal (b : Bool) (slow normal fast minS maxS d : ℚ)
    (h0 : 0 < slow) (hmin : minS ≤ 1) (hd : d < normal) :
    proximitySpeedFactor ⟨b, slow, normal, fast, minS, maxS⟩ d ≤ 1 := by
  rcases lt_or_le d slow with h | h
  · rw [psf_eval_slow b slow normal fast minS maxS d h]
    exact lerp_slow_le_one minS slow d h0 hmin h
  · rw [psf_eval_normal b slow normal fast minS maxS d h hd]

theorem one_le_psf_of_slow_le (b : Bool) (slow normal fast minS maxS d : ℚ)
    (hsn : slow < normal) (hnf : normal < fast) (hmax : 1 ≤ maxS)
    (hd : slow ≤ d) :
    1 ≤ proximitySpeedFactor ⟨b, slow, normal, fast, minS, maxS⟩ d := by
  rcases lt_or_le d normal with h | h
  · rw [psf_eval_normal b slow normal fast minS maxS d hd h]
  · rcases lt_or_le d fast with h2 | h2
    · rw [psf_eval_fast b slow normal fast minS maxS d hsn h h2]
      exact one_le_lerp_fast maxS normal fast d hnf hmax h
    · rw [psf_eval_max b slow normal fast minS maxS d hsn hnf h2]
      exact hmax

/-- C2 (amended with the necessary extra hypothesis 0 < slowDistance): for
every configuration with 0 < slowDistance < normalDistance < fastDistance and
minSpeed ≤ 1 ≤ maxSpeed, the proximity speed factor is non-decreasing in the
distance, equals minSpeed at distance 0, equals 1 on
[slowDistance, normalDistance), equals maxSpeed at and beyond fastDistance,
and on [0, slowDistance) and [normalDistance, fastDistance) is the stated
linear interpolation. -/
theorem proximity_speed_factor_piecewise (b : Bool) (slow normal fast minS maxS : ℚ)
    (h0 : 0 < slow) (hsn : slow < normal) (hnf : normal < fast)
    (hmin : minS ≤ 1) (hmax : 1 ≤ maxS) :
    (∀ d₁ d₂ : ℚ, d₁ ≤ d₂ →
      proximitySpeedFactor ⟨b, slow, normal, fast, minS, maxS⟩ d₁ ≤
        proximitySpeedFactor ⟨b, slow, normal, fast, minS, maxS⟩ d₂) ∧
    proximitySpeedFactor ⟨b, slow, normal, fast, minS, maxS⟩ 0 = minS ∧
    (∀ d : ℚ, slow ≤ d → d < normal →
      proximitySpeedFactor ⟨b, slow, normal, fast, minS, maxS⟩ d = 1) ∧
    (∀ d : ℚ, fast ≤ d →
      proximitySpeedFactor ⟨b, slow, normal, fast, minS, maxS⟩ d = maxS) ∧
    (∀ d : ℚ, 0 ≤ d → d < slow →
      proximitySpeedFactor ⟨b, slow, normal, fast, minS, maxS⟩ d =
        lerp minS 1 (d / slow)) ∧
    (∀ d : ℚ, normal ≤ d → d < fast →
      proximitySpeedFactor ⟨b, slow, normal, fast, minS, maxS⟩ d =
        lerp 1 maxS ((d - normal) / (fast - normal))) := by
  refine ⟨?_, ?_, ?_, ?_, ?_, ?_⟩
  · intro d₁ d₂ h12
    rcases lt_or_le d₁ slow with ha | ha
    · rcases lt_or_le d₂ slow with hb | hb
      · rw [psf_eval_slow b slow normal fast minS maxS d₁ ha,
          psf_eval_slow b slow normal fast minS maxS d₂ hb]
        exact lerp_slow_mono minS slow d₁ d₂ h0 hmin h12
      · exact le_trans
          (psf_le_one_of_lt_normal b slow normal fast minS maxS d₁ h0 hmin (by linarith))
          (one_le_psf_of_slow_le b slow normal fast minS maxS d₂ hsn hnf hmax hb)
    · rcases lt_or_le d₁ normal with hb | hb
      · rw [psf_eval_normal b slow normal fast minS maxS d₁ ha hb]
        exact one_le_psf_of_slow_le b slow normal fast minS maxS d₂ hsn hnf hmax
          (by linarith)
      · rcases lt_or_le d₁ fast with hc | hc
        · rw [psf_eval_fast b slow normal fast minS maxS d₁ hsn hb hc]
          rcases lt_or_le d₂ fast with hd | hd
          · rw [psf_eval_fast b slow normal fast minS maxS d₂ hsn (by linarith) hd]
            exact lerp_fast_mono maxS normal fast d₁ d₂ hnf hmax h12
          · rw [psf_eval_max b slow normal fast minS maxS d₂ hsn hnf hd]
            exact lerp_fast_le_max maxS normal fast d₁ hnf hmax hc
        · rw [psf_eval_max b slow normal fast minS maxS d₁ hsn hnf hc,
            psf_eval_max b slow normal fast minS maxS d₂ hsn hnf (by linarith)]
  · rw [psf_eval_slow b slow normal fast minS maxS 0 h0]
    simp [lerp]
  · intro d hd1 hd2
    exact psf_eval_normal b slow normal fast minS maxS d hd1 hd2
  · intro d hd
    exact psf_eval_max b slow normal fast minS maxS d hsn hnf hd
  · intro d _ hd2
    exact psf_eval_slow b slow normal fast minS maxS d hd2
  · intro d hd1 hd2
    exact psf_eval_fast b slow normal fast minS maxS d hsn hd1 hd2

/-- C2 counterexample to the claim as stated: the configuration
slowDistance = 0, normalDistance = 1, fastDistance = 2, minSpeed = 1/2,
maxSpeed = 2 satisfies every hypothesis the claim lists
(slowDistance < normalDistance < fastDistance and minSpeed ≤ 1 ≤ maxSpeed),
yet the proximity speed factor at distance 0 is 1, not minSpeed. -/
theorem proximity_speed_factor_counterexample :
    (0 : ℚ) < 1 ∧ (1 : ℚ) < 2 ∧ (1 / 2 : ℚ) ≤ 1 ∧ (1 : ℚ) ≤ 2 ∧
    proximitySpeedFactor ⟨true, 0, 1, 2, 1 / 2, 2⟩ 0 ≠ 1 / 2 := by
  refine ⟨by norm_num, by norm_num, by norm_num, by norm_num, ?_⟩
  norm_num [proximitySpeedFactor]

/-- Concrete instance of the amended piecewise theorem at the default
configuration of the original instant variant. -/
theorem proximity_speed_factor_piecewise_witness :
    (proximitySpeedFactor ⟨true, 2, 10, 50, 1 / 10, 5⟩ 1 ≤
      proximitySpeedFactor ⟨true, 2, 10, 50, 1 / 10, 5⟩ 30) ∧
    proximitySpeedFactor ⟨true, 2, 10, 50, 1 / 10, 5⟩ 0 = 1 / 10 ∧
    proximitySpeedFactor ⟨true, 2, 10, 50, 1 / 10, 5⟩ 5 = 1 ∧
    proximitySpeedFactor ⟨true, 2, 10, 50, 1 / 10, 5⟩ 60 = 5 ∧
    proximitySpeedFactor ⟨true, 2, 10, 50, 1 / 10, 5⟩ 1 = lerp (1 / 10) 1 (1 / 2) ∧
    proximitySpeedFactor ⟨true, 2, 10, 50, 1 / 10, 5⟩ 30 =
      lerp 1 5 ((30 - 10) / (50 - 10)) := by
  obtain ⟨hm, hz, hmid, hfar, hlow, hhi⟩ :=
    proximity_speed_factor_piecewise true 2 10 50 (1 / 10) 5 (by norm_num)
      (by norm_num) (by norm_num) (by norm_num) (by norm_num)
  exact ⟨hm 1 30 (by norm_num), hz, hmid 5 (by norm_num) (by norm_num),
    hfar 60 (by norm_num), hlow 1 (by norm_num) (by norm_num),
    hhi 30 (by norm_num) (by norm_num)⟩

/-! ### Instant + proximity strategy: raycast resolution and camera move -/

/-- Nearest hit of a scene intersection query: point and distance. -/
structure RaycastHit where
  point : Vec3
  distance : ℚ
deriving DecidableEq, Repr

/-- Outcome of one castRay call: a resolved optional hit, or a raised error. -/
inductive RaycastOutcome where
  | ok (hit : Option RaycastHit)
  | err
deriving DecidableEq, Repr

/-- Model of performRaycast of the cached-raycast instant variant. Given the
isMoving flag and the castRay outcome it returns the pivot committed to the
camera rig through setOrbitPoint (none when no commit happens) and the new
cachedSpeedFactor. The pivot is committed only from a hit and only when
isMoving is false; with proximitySlowdown disabled the routine returns before
the factor update; a raised error is caught and caches the maximum speed. -/
def performRaycast (cfg : ProximityConfig) (isMoving : Bool)
    (outcome : RaycastOutcome) (cachedSpeedFactor : ℚ) : Option Vec3 × ℚ :=
  match outcome with
  | .err => (none, cfg.proximityMaxSpeed)
  | .ok hit =>
    let pivot : Option Vec3 :=
      match hit with
      | some h => if isMoving then none else some h.point
      | none => none
    if !cfg.proximitySlowdown then (pivot, cachedSpeedFactor)
    else
      match hit with
      | some h => (pivot, proximitySpeedFactor cfg h.distance)
      | none => (pivot, cfg.proximityMaxSpeed)

/-- C3. In the instant + proximity strategy, a scene intersection query that
resolves with no hit makes the cached proximity speed factor, which the wheel
handler uses for its steps, equal to the configured maximum speed. -/
theorem no_hit_caches_max_speed (cfg : ProximityConfig) (isMoving : Bool)
    (cached : ℚ) (h : cfg.proximitySlowdown = true) :
    (performRaycast cfg isMoving (.ok none) cached).2 = cfg.proximityMaxSpeed := by
  simp [performRaycast, h]

/-- Concrete instance: with the default configuration of the cached-raycast
variant, a no-hit raycast caches the factor 10. -/
theorem no_hit_caches_max_speed_witness :
    (performRaycast ⟨true, 2, 8, 50, 1 / 5, 10⟩ false (.ok none) 1).2 = 10 :=
  no_hit_caches_max_speed ⟨true, 2, 8, 50, 1 / 5, 10⟩ false 1 rfl

/-- C8. While a scroll burst is in progress (the isMoving flag is set), a
raycast resolution commits no pivot to the camera rig, whatever the query
returned; the cached speed factor is updated exactly as it would be with the
flag clear. -/
theorem no_pivot_update_while_moving (cfg : ProximityConfig)
    (outcome : RaycastOutcome) (cached : ℚ) :
    (performRaycast cfg true outcome cached).1 = none ∧
    (performRaycast cfg true outcome cached).2 =
      (performRaycast cfg false outcome cached).2 := by
  cases outcome with
  | err => simp [performRaycast]
  | ok hit =>
    cases hit <;> by_cases h : cfg.proximitySlowdown <;> simp [performRaycast, h]

/-- Camera move shared verbatim by the three wheel motion sites (the two
instant wheelHandler bodies and the momentum animate step): the position and
the target are both advanced with addScaledVector by the same ray direction
and step before setLookAt. -/
def dollyMove (pos tgt dir : Vec3) (step : ℚ) : Vec3 × Vec3 :=
  (pos.addScaledVector dir step, tgt.addScaledVector dir step)

/-- C10. Every wheel-induced camera move adds the identical vector to the
position and the target, so the offset from position to target, and with it
the view direction and the position-to-target distance, is unchanged. -/
theorem dolly_move_preserves_view_offset (pos tgt dir : Vec3) (step : ℚ) :
    Vec3.sub (dollyMove pos tgt dir step).2 (dollyMove pos tgt dir step).1 =
      Vec3.sub tgt pos := by
  simp only [dollyMove, Vec3.addScaledVector, Vec3.sub, Vec3.mk.injEq]
  refine ⟨by ring, by ring, by ring⟩

/-! ### Scene-scale calibration -/

/-- A JavaScript number as consumed by the calibration utility: a finite
rational value or one of the non-finite values rejected by isFinite. -/
inductive JsNumber where
  | finite (q : ℚ)
  | nan
  | posInf
  | negInf
deriving DecidableEq, Repr

/-- Model of the isFinite test of the calibration guard. -/
def JsNumber.isFinite : JsNumber → Bool
  | .finite _ => true
  | _ => false

/-- Model of calibrateDollyStepByScene: when the scene diagonal passes the
guard isFinite(diag) and diag > 0, the step reference becomes
max (diag * 0.02) 0.5; otherwise the previous value is kept. The guard is
written as a match since a non-finite diagonal fails it: NaN comparisons are
false and infinities fail isFinite. -/
def calibrateDollyStepByScene (diag : JsNumber) (prev : ℚ) : ℚ :=
  match diag with
  | .finite q => if 0 < q then max (q * 0.02) 0.5 else prev
  | _ => prev

/-- C6. Calibration sets the base step to max (diag * 0.02) 0.5 exactly for
finite positive diagonals, leaves it unchanged for non-positive or non-finite
diagonals, and preserves positivity of the base step. -/
theorem calibrate_dolly_step_spec :
    (∀ (q prev : ℚ), 0 < q →
      calibrateDollyStepByScene (.finite q) prev = max (q * 0.02) 0.5) ∧
    (∀ (q prev : ℚ), q ≤ 0 → calibrateDollyStepByScene (.finite q) prev = prev) ∧
    (∀ (diag : JsNumber) (prev : ℚ), diag.isFinite = false →
      calibrateDollyStepByScene diag prev = prev) ∧
    (∀ (diag : JsNumber) (prev : ℚ), 0 < prev →
      0 < calibrateDollyStepByScene diag prev) := by
  refine ⟨?_, ?_, ?_, ?_⟩
  · intro q prev h
    simp [calibrateDollyStepByScene, h]
  · intro q prev h
    simp [calibrateDollyStepByScene, not_lt.2 h]
  · intro diag prev h
    cases diag <;> simp_all [calibrateDollyStepByScene, JsNumber.isFinite]
  · intro diag prev h
    cases diag with
    | finite q =>
      by_cases hq : 0 < q
      · simpa [calibrateDollyStepByScene, hq] using
          lt_of_lt_of_le (by norm_num : (0 : ℚ) < 0.5) (le_max_right (q * 0.02) 0.5)
      · simpa [calibrateDollyStepByScene, hq] using h
    | nan => simpa [calibrateDollyStepByScene] using h
    | posInf => simpa [calibrateDollyStepByScene] using h
    | negInf => simpa [calibrateDollyStepByScene] using h

/-- Concrete instance of the calibration theorem: diagonal 100 gives step 2,
diagonal 0 and NaN keep the previous step, positivity is preserved. -/
theorem calibrate_dolly_step_spec_witness :
    calibrateDollyStepByScene (.finite 100) (1 / 5) = max (100 * 0.02) 0.5 ∧
    calibrateDollyStepByScene (.finite 0) (1 / 5) = 1 / 5 ∧
    calibrateDollyStepByScene .nan (1 / 5) = 1 / 5 ∧
    0 < calibrateDollyStepByScene .nan (1 / 5) := by
  refine ⟨calibrate_dolly_step_spec.1 100 (1 / 5) (by norm_num),
    calibrate_dolly_step_spec.2.1 0 (1 / 5) (by norm_num),
    calibrate_dolly_step_spec.2.2.1 .nan (1 / 5) rfl,
    calibrate_dolly_step_spec.2.2.2 .nan (1 / 5) (by norm_num)⟩

/-! ### Pivot selection controller (mouseOrbitControl) -/

/-- Minimum pixel distance to trigger orbit point setting. -/
def DRAG_DISTANCE_THRESHOLD : ℤ := 10

/-- MouseOrbitControlState: press position, per-gesture commit flag and the
stored intersection point of the raycast issued at gesture start. Screen
pixel coordinates are modelled as integers. -/
structure OrbitState where
  mouseDownPosX : ℤ
  mouseDownPosY : ℤ
  hasSetOrbitPoint : Bool
  raycastResult : Option Vec3
deriving DecidableEq, Repr

/-- Initial state of a freshly created mouse orbit controller. -/
def initOrbitState : OrbitState := ⟨0, 0, false, none⟩

/-- A pointer move event: buttons bitmask and client pixel coordinates. -/
structure MoveEvt where
  buttons : ℕ
  clientX : ℤ
  clientY : ℤ
deriving DecidableEq, Repr

/-- Model of mouseDownHandler: a non-primary button is ignored; a primary
press records the press position, clears the per-gesture flag and stores the
point of the asynchronous raycast, modelled by its resolved outcome: a hit
stores its point, while no hit or a caught and logged error leaves the stored
result empty. -/
def mouseDownHandler (s : OrbitState) (button : ℕ) (clientX clientY : ℤ)
    (outcome : RaycastOutcome) : OrbitState :=
  if button ≠ 0 then s
  else
    { mouseDownPosX := clientX
      mouseDownPosY := clientY
      hasSetOrbitPoint := false
      raycastResult :=
        match outcome with
        | .ok (some h) => some h.point
        | _ => none }

/-- Model of mouseMoveHandler. The source compares the Euclidean distance
sqrt (dx^2 + dy^2) with the threshold 10; both sides being nonnegative this is
equivalent to comparing dx^2 + dy^2 with 10^2, which keeps the model in
integer pixels. Returns the new state and the pivot committed through
setOrbitPoint, if any. -/
def mouseMoveHandler (s : OrbitState) (e : MoveEvt) : OrbitState × Option Vec3 :=
  if e.buttons ≠ 1 ∨ s.hasSetOrbitPoint = true then (s, none)
  else
    let distSq := (e.clientX - s.mouseDownPosX) ^ 2 + (e.clientY - s.mouseDownPosY) ^ 2
    match s.raycastResult with
    | some p =>
      if distSq > DRAG_DISTANCE_THRESHOLD ^ 2 then
        ({ s with hasSetOrbitPoint := true }, some p)
      else (s, none)
    | none => (s, none)

/-- Processes a list of pointer moves, collecting committed pivots in order. -/
def runMoves (s : OrbitState) : List MoveEvt → OrbitState × List Vec3
  | [] => (s, [])
  | e :: es =>
    let r := mouseMoveHandler s e
    let rest := runMoves r.1 es
    (rest.1, r.2.toList ++ rest.2)

theorem runMoves_of_hasSet (s : OrbitState) (hs : s.hasSetOrbitPoint = true) :
    ∀ es : List MoveEvt, runMoves s es = (s, []) := by
  intro es
  induction es with
  | nil => rfl
  | cons e es ih =>
    have hh : mouseMoveHandler s e = (s, none) := by
      simp [mouseMoveHandler, hs]
    simp [runMoves, hh, ih]

theorem mouseMoveHandler_cases (s : OrbitState) (e : MoveEvt) :
    mouseMoveHandler s e = (s, none) ∨
    ((mouseMoveHandler s e).1.hasSetOrbitPoint = true ∧
      (mouseMoveHandler s e).2 = s.raycastResult) := by
  unfold mouseMoveHandler
  split_ifs with h
  · exact Or.inl rfl
  · rcases hr : s.raycastResult with _ | p
    · exact Or.inl rfl
    · dsimp only
      split_ifs with hd
      · exact Or.inr ⟨rfl, rfl⟩
      · exact Or.inl rfl

theorem runMoves_commit_count_le_one (es : List MoveEvt) (s : OrbitState) :
    (runMoves s es).2.length ≤ 1 := by
  induction es generalizing s with
  | nil => simp [runMoves]
  | cons e es ih =>
    rcases mouseMoveHandler_cases s e with h | ⟨h1, _⟩
    · simp only [runMoves, h]
      simpa using ih s
    · have hrest := runMoves_of_hasSet (mouseMoveHandler s e).1 h1 es
      simp only [runMoves, hrest]
      cases (mouseMoveHandler s e).2 <;> simp

/-- C4. At most one pivot commit per drag gesture: after a primary press, any
sequence of pointer moves commits at most one pivot; a move that commits sets
the per-gesture flag; and once the flag is set, further moves of the gesture
commit nothing and leave the state untouched. -/
theorem at_most_one_pivot_per_gesture :
    (∀ (s : OrbitState) (x y : ℤ) (outcome : RaycastOutcome) (es : List MoveEvt),
      (runMoves (mouseDownHandler s 0 x y outcome) es).2.length ≤ 1) ∧
    (∀ (s : OrbitState) (e : MoveEvt), (mouseMoveHandler s e).2.isSome = true →
      (mouseMoveHandler s e).1.hasSetOrbitPoint = true) ∧
    (∀ (s : OrbitState) (es : List MoveEvt), s.hasSetOrbitPoint = true →
      runMoves s es = (s, [])) := by
  refine ⟨?_, ?_, ?_⟩
  · intro s x y outcome es
    exact runMoves_commit_count_le_one es (mouseDownHandler s 0 x y outcome)
  · intro s e h
    rcases mouseMoveHandler_cases s e with hc | ⟨h1, _⟩
    · rw [hc] at h
      simp at h
    · exact h1
  · intro s es hs
    exact runMoves_of_hasSet s hs es

/-- Concrete instance of the at-most-once property: a gesture with a stored
hit and three qualifying moves commits at most one pivot; the committing move
sets the flag; with the flag set nothing further is committed. -/
theorem at_most_one_pivot_per_gesture_witness :
    (runMoves (mouseDownHandler initOrbitState 0 100 100 (.ok (some ⟨⟨1, 2, 3⟩, 7⟩)))
      [⟨1, 100, 112⟩, ⟨1, 100, 150⟩, ⟨1, 100, 180⟩]).2.length ≤ 1 ∧
    (mouseMoveHandler (mouseDownHandler initOrbitState 0 100 100
      (.ok (some ⟨⟨1, 2, 3⟩, 7⟩))) ⟨1, 100, 112⟩).1.hasSetOrbitPoint = true ∧
    runMoves ⟨100, 100, true, some ⟨1, 2, 3⟩⟩ [⟨1, 100, 112⟩] =
      (⟨100, 100, true, some ⟨1, 2, 3⟩⟩, []) :=
  ⟨at_most_one_pivot_per_gesture.1 initOrbitState 100 100
      (.ok (some ⟨⟨1, 2, 3⟩, 7⟩)) [⟨1, 100, 112⟩, ⟨1, 100, 150⟩, ⟨1, 100, 180⟩],
    at_most_one_pivot_per_gesture.2.1 (mouseDownHandler initOrbitState 0 100 100
      (.ok (some ⟨⟨1, 2, 3⟩, 7⟩))) ⟨1, 100, 112⟩ rfl,
    at_most_one_pivot_per_gesture.2.2 ⟨100, 100, true, some ⟨1, 2, 3⟩⟩
      [⟨1, 100, 112⟩] rfl⟩

/-- C5. Drag threshold at the concrete inputs of the claim: after a press at
(100, 100) with a stored hit, a move to (105, 100) (distance 5 < 10) commits
nothing; a move to (100, 112) (distance 12 > 10) with the primary button held
commits exactly the stored point, also over a longer gesture; and a move past
the threshold with no stored intersection point commits nothing. -/
theorem drag_threshold_concrete :
    (mouseMoveHandler (mouseDownHandler initOrbitState 0 100 100
      (.ok (some ⟨⟨1, 2, 3⟩, 7⟩))) ⟨1, 105, 100⟩).2 = none ∧
    (mouseMoveHandler (mouseDownHandler initOrbitState 0 100 100
      (.ok (some ⟨⟨1, 2, 3⟩, 7⟩))) ⟨1, 100, 112⟩).2 = some ⟨1, 2, 3⟩ ∧
    (runMoves (mouseDownHandler initOrbitState 0 100 100 (.ok (some ⟨⟨1, 2, 3⟩, 7⟩)))
      [⟨1, 105, 100⟩, ⟨1, 100, 112⟩, ⟨1, 100, 150⟩]).2 = [⟨1, 2, 3⟩] ∧
    (mouseMoveHandler (mouseDownHandler initOrbitState 0 100 100 (.ok none))
      ⟨1, 100, 112⟩).2 = none :=
  ⟨rfl, rfl, rfl, rfl⟩

/-- Model of the standalone setOrbitPoint utility: the direct raycast either
raises (the error is caught and logged, the function returns normally) or
yields the list of intersection points; only a nonempty list commits its
first point. -/
def setOrbitPointUtility (outcome : Except Unit (List Vec3)) : Option Vec3 :=
  match outcome with
  | .error _ => none
  | .ok [] => none
  | .ok (p :: _) => some p

/-- C9. Failure atomicity of pivot selection: a gesture whose start raycast
raises an error or resolves with no hit commits no pivot on any later move,
and the standalone utility commits nothing on a raised error or an empty
intersection list; all handlers are total functions, modelling that the
caught failures never propagate to the caller. -/
theorem pivot_failure_atomicity :
    (∀ (s : OrbitState) (x y : ℤ) (es : List MoveEvt),
      (runMoves (mouseDownHandler s 0 x y .err) es).2 = []) ∧
    (∀ (s : OrbitState) (x y : ℤ) (es : List MoveEvt),
      (runMoves (mouseDownHandler s 0 x y (.ok none)) es).2 = []) ∧
    setOrbitPointUtility (.error ()) = none ∧
    setOrbitPointUtility (.ok []) = none := by
  have key : ∀ (s : OrbitState), s.raycastResult = none →
      ∀ es : List MoveEvt, runMoves s es = (s, []) := by
    intro s hr es
    induction es with
    | nil => rfl
    | cons e es ih =>
      have hh : mouseMoveHandler s e = (s, none) := by
        simp [mouseMoveHandler, hr]
      simp [runMoves, hh, ih]
  refine ⟨?_, ?_, rfl, rfl⟩
  · intro s x y es
    rw [key (mouseDownHandler s 0 x y .err) (by simp [mouseDownHandler]) es]
  · intro s x y es
    rw [key (mouseDownHandler s 0 x y (.ok none)) (by simp [mouseDownHandler]) es]

/-! ### Callback scheduling and cleanup (momentum variant) -/

/-- Scheduling state of the momentum wheel controller: the motion state, the
stored animation-frame and fragment-update timer handles (cleanup cancels the
callbacks but does not null the stored handles, as in the source), a fresh
handle counter, and the list of callback handles currently scheduled with the
host (pending requestAnimationFrame requests and setTimeout timers). -/
structure SchedulerState where
  motion : MomentumState
  wheelTimeoutId : Option ℕ
  animationFrameId : Option ℕ
  nextId : ℕ
  pending : List ℕ
deriving DecidableEq, Repr

/-- State of a freshly created momentum controller: nothing scheduled. -/
def initSchedulerState : SchedulerState :=
  { motion := initMomentumState
    wheelTimeoutId := none
    animationFrameId := none
    nextId := 0
    pending := [] }

/-- Schedules a fresh callback with the host (requestAnimationFrame or
setTimeout), returning the new state and the handle. -/
def scheduleCb (s : SchedulerState) : SchedulerState × ℕ :=
  ({ s with pending := s.pending ++ [s.nextId], nextId := s.nextId + 1 }, s.nextId)

/-- Cancels a scheduled callback by handle (cancelAnimationFrame or
clearTimeout); a handle that is not pending is a no-op. -/
def cancelCb (s : SchedulerState) (id : ℕ) : SchedulerState :=
  { s with pending := s.pending.filter (fun j => j != id) }

/-- Scheduling effect of the momentum wheelHandler (camera rig present): the
motion state is updated; an animation frame is requested only when the stored
animationFrameId is none; the stored fragment-update timer is cleared when its
stored handle is non-null and a new timer is always scheduled. -/
def wheelHandlerSched (cfg : MomentumConfig) (base : ℚ) (s : SchedulerState)
    (e : WheelEvt) : SchedulerState :=
  let s1 := { s with motion := momentumWheelUpdate cfg base s.motion e }
  let s2 :=
    match s1.animationFrameId with
    | none =>
      let r := scheduleCb s1
      { r.1 with animationFrameId := some r.2 }
    | some _ => s1
  let s3 :=
    match s2.wheelTimeoutId with
    | some tid => cancelCb s2 tid
    | none => s2
  let r := scheduleCb s3
  { r.1 with wheelTimeoutId := some r.2 }

/-- Scheduling effect of one animate tick: it runs only if the stored
animation frame is still pending (a cancelled frame never fires), consumes the
frame, and either stops (pending step below the epsilon 0.001: step zeroed,
handle nulled) or applies one smoothing fraction and requests the next
frame. -/
def animateSched (cfg : MomentumConfig) (s : SchedulerState) : SchedulerState :=
  match s.animationFrameId with
  | none => s
  | some a =>
    if a ∈ s.pending then
      let s1 := cancelCb s a
      if |s1.motion.targetStep| < 0.001 then
        { s1 with motion := { s1.motion with targetStep := 0 }, animationFrameId := none }
      else
        let r := scheduleCb
          { s1 with motion :=
              { s1.motion with targetStep :=
                  s1.motion.targetStep - s1.motion.targetStep * cfg.smoothing } }
        { r.1 with animationFrameId := some r.2 }
    else s

/-- Scheduling effect of the fragment-update timer firing: it runs only if
still pending, consumes the timer and nulls the stored handle. -/
def timerFireSched (s : SchedulerState) : SchedulerState :=
  match s.wheelTimeoutId with
  | none => s
  | some t =>
    if t ∈ s.pending then
      { s with pending := s.pending.filter (fun j => j != t), wheelTimeoutId := none }
    else s

/-- Model of cleanup: cancels the stored animation frame and the stored timer
when their handles are non-null; the handles themselves are not nulled, as in
the source. -/
def cleanupSched (s : SchedulerState) : SchedulerState :=
  let s1 :=
    match s.animationFrameId with
    | some a => cancelCb s a
    | none => s
  match s1.wheelTimeoutId with
  | some t => cancelCb s1 t
  | none => s1

/-- Events the controller reacts to after creation. -/
inductive ControllerEvt where
  | wheel (e : WheelEvt)
  | animationFrame
  | timerFire
  | cleanup
deriving Repr

/-- One controller step. -/
def schedStep (cfg : MomentumConfig) (base : ℚ) (s : SchedulerState) :
    ControllerEvt → SchedulerState
  | .wheel e => wheelHandlerSched cfg base s e
  | .animationFrame => animateSched cfg s
  | .timerFire => timerFireSched s
  | .cleanup => cleanupSched s

/-- Runs the controller from creation over a list of events. -/
def runController (cfg : MomentumConfig) (base : ℚ)
    (evts : List ControllerEvt) : SchedulerState :=
  evts.foldl (schedStep cfg base) initSchedulerState

/-- Every pending callback handle is one of the two stored handles. -/
def SchedInv (s : SchedulerState) : Prop :=
  ∀ j ∈ s.pending, s.wheelTimeoutId = some j ∨ s.animationFrameId = some j

theorem schedInv_init : SchedInv initSchedulerState := by
  intro j hj
  simp [initSchedulerState] at hj

theorem schedInv_wheel (cfg : MomentumConfig) (base : ℚ) (s : SchedulerState)
    (e : WheelEvt) (h : SchedInv s) : SchedInv (wheelHandlerSched cfg base s e) := by
  intro j hj
  cases ha : s.animationFrameId with
  | none =>
    cases hw : s.wheelTimeoutId with
    | none =>
      simp only [wheelHandlerSched, scheduleCb, cancelCb, ha, hw] at hj ⊢
      simp only [List.mem_append, List.mem_singleton] at hj
      rcases hj with (hj | hj) | hj
      · rcases h j hj with hc | hc
        · rw [hw] at hc
          exact absurd hc (by simp)
        · rw [ha] at hc
          exact absurd hc (by simp)
      · exact Or.inr (by simp [hj])
      · exact Or.inl (by simp [hj])
    | some tid =>
      simp only [wheelHandlerSched, scheduleCb, cancelCb, ha, hw] at hj ⊢
      simp only [List.mem_append, List.mem_filter, List.mem_singleton] at hj
      rcases hj with ⟨(hj | hj), hne⟩ | hj
      · rcases h j hj with hc | hc
        · rw [hw] at hc
          simp at hc
          simp [hc] at hne
        · rw [ha] at hc
          exact absurd hc (by simp)
      · exact Or.inr (by simp [hj])
      · exact Or.inl (by simp [hj])
  | some a =>
    cases hw : s.wheelTimeoutId with
    | none =>
      simp only [wheelHandlerSched, scheduleCb, cancelCb, ha, hw] at hj ⊢
      simp only [List.mem_append, List.mem_singleton] at hj
      rcases hj with hj | hj
      · rcases h j hj with hc | hc
        · rw [hw] at hc
          exact absurd hc (by simp)
        · rw [ha] at hc
          exact Or.inr hc
      · exact Or.inl (by simp [hj])
    | some tid =>
      simp only [wheelHandlerSched, scheduleCb, cancelCb, ha, hw] at hj ⊢
      simp only [List.mem_append, List.mem_filter, List.mem_singleton] at hj
      rcases hj with ⟨hj, hne⟩ | hj
      · rcases h j hj with hc | hc
        · rw [hw] at hc
          simp at hc
          simp [hc] at hne
        · rw [ha] at hc
          exact Or.inr hc
      · exact Or.inl (by simp [hj])

theorem schedInv_animate (cfg : MomentumConfig) (s : SchedulerState)
    (h : SchedInv s) : SchedInv (animateSched cfg s) := by
  intro j hj
  cases ha : s.animationFrameId with
  | none =>
    simp only [animateSched, ha] at hj ⊢
    have hc := h j hj
    rw [ha] at hc
    exact hc
  | some a =>
    simp only [animateSched, ha] at hj ⊢
    by_cases hmem : a ∈ s.pending
    · simp only [if_pos hmem, cancelCb, scheduleCb] at hj ⊢
      by_cases heps : |s.motion.targetStep| < 0.001
      · simp only [if_pos heps] at hj ⊢
        simp only [List.mem_filter, bne_iff_ne, ne_eq] at hj
        rcases h j hj.1 with hc | hc
        · exact Or.inl hc
        · rw [ha] at hc
          simp at hc
          exact absurd hc.symm hj.2
      · simp only [if_neg heps] at hj ⊢
        simp only [List.mem_append, List.mem_filter, List.mem_singleton,
          bne_iff_ne, ne_eq] at hj
        rcases hj with ⟨hj, hne⟩ | hj
        · rcases h j hj with hc | hc
          · exact Or.inl hc
          · rw [ha] at hc
            simp at hc
            exact absurd hc.symm hne
        · exact Or.inr (by simp [hj])
    · simp only [if_neg hmem] at hj ⊢
      exact h j hj

theorem schedInv_timerFire (s : SchedulerState) (h : SchedInv s) :
    SchedInv (timerFireSched s) := by
  intro j hj
  cases hw : s.wheelTimeoutId with
  | none =>
    simp only [timerFireSched, hw] at hj ⊢
    have hc := h j hj
    rw [hw] at hc
    exact hc
  | some t =>
    simp only [timerFireSched, hw] at hj ⊢
    by_cases hmem : t ∈ s.pending
    · simp only [if_pos hmem] at hj ⊢
      simp only [List.mem_filter, bne_iff_ne, ne_eq] at hj
      rcases h j hj.1 with hc | hc
      · rw [hw] at hc
        simp at hc
        exact absurd hc.symm hj.2
      · exact Or.inr hc
    · simp only [if_neg hmem] at hj ⊢
      exact h j hj

theorem schedInv_cleanup (s : SchedulerState) (h : SchedInv s) :
    SchedInv (cleanupSched s) := by
  intro j hj
  cases ha : s.animationFrameId with
  | none =>
    cases hw : s.wheelTimeoutId with
    | none =>
      simp only [cleanupSched, cancelCb, ha, hw] at hj ⊢
      have hc := h j hj
      rw [ha, hw] at hc
      exact hc
    | some t =>
      simp only [cleanupSched, cancelCb, ha, hw] at hj ⊢
      simp only [List.mem_filter, bne_iff_ne, ne_eq] at hj
      have hc := h j hj.1
      rw [ha, hw] at hc
      exact hc
  | some a =>
    cases hw : s.wheelTimeoutId with
    | none =>
      simp only [cleanupSched, cancelCb, ha, hw] at hj ⊢
      simp only [List.mem_filter, bne_iff_ne, ne_eq] at hj
      have hc := h j hj.1
      rw [ha, hw] at hc
      exact hc
    | some t =>
      simp only [cleanupSched, cancelCb, ha, hw] at hj ⊢
      simp only [List.mem_filter, bne_iff_ne, ne_eq] at hj
      have hc := h j hj.1.1
      rw [ha, hw] at hc
      exact hc

theorem schedInv_step (cfg : MomentumConfig) (base : ℚ) (s : SchedulerState)
    (ev : ControllerEvt) (h : SchedInv s) : SchedInv (schedStep cfg base s ev) := by
  cases ev with
  | wheel e => exact schedInv_wheel cfg base s e h
  | animationFrame => exact schedInv_animate cfg s h
  | timerFire => exact schedInv_timerFire s h
  | cleanup => exact schedInv_cleanup s h

theorem schedInv_run (cfg : MomentumConfig) (base : ℚ)
    (evts : List ControllerEvt) : SchedInv (runController cfg base evts) := by
  suffices hgen : ∀ (s : SchedulerState), SchedInv s →
      SchedInv (evts.foldl (schedStep cfg base) s) by
    exact hgen initSchedulerState schedInv_init
  induction evts with
  | nil => intro s hs; exact hs
  | cons ev evts ih =>
    intro s hs
    exact ih (schedStep cfg base s ev) (schedInv_step cfg base s ev hs)

theorem cleanupSched_pending_nil (s : SchedulerState) (h : SchedInv s) :
    (cleanupSched s).pending = [] := by
  rw [List.eq_nil_iff_forall_not_mem]
  intro j hj
  cases ha : s.animationFrameId with
  | none =>
    cases hw : s.wheelTimeoutId with
    | none =>
      simp only [cleanupSched, cancelCb, ha, hw] at hj
      rcases h j hj with hc | hc
      · rw [hw] at hc
        exact absurd hc (by simp)
      · rw [ha] at hc
        exact absurd hc (by simp)
    | some t =>
      simp only [cleanupSched, cancelCb, ha, hw] at hj
      simp only [List.mem_filter, bne_iff_ne, ne_eq] at hj
      rcases h j hj.1 with hc | hc
      · rw [hw] at hc
        simp at hc
        exact hj.2 hc.symm
      · rw [ha] at hc
        exact absurd hc (by simp)
  | some a =>
    cases hw : s.wheelTimeoutId with
    | none =>
      simp only [cleanupSched, cancelCb, ha, hw] at hj
      simp only [List.mem_filter, bne_iff_ne, ne_eq] at hj
      rcases h j hj.1 with hc | hc
      · rw [hw] at hc
        exact absurd hc (by simp)
      · rw [ha] at hc
        simp at hc
        exact hj.2 hc.symm
    | some t =>
      simp only [cleanupSched, cancelCb, ha, hw] at hj
      simp only [List.mem_filter, bne_iff_ne, ne_eq] at hj
      rcases h j hj.1.1 with hc | hc
      · rw [hw] at hc
        simp at hc
        exact hj.2 hc.symm
      · rw [ha] at hc
        simp at hc
        exact hj.1.2 hc.symm

theorem wheelHandlerSched_pending_ne_nil (cfg : MomentumConfig) (base : ℚ)
    (s : SchedulerState) (e : WheelEvt) :
    (wheelHandlerSched cfg base s e).pending ≠ [] := by
  cases ha : s.animationFrameId <;> cases hw : s.wheelTimeoutId <;>
    simp [wheelHandlerSched, scheduleCb, cancelCb, ha, hw]

/-- C7 (amended): cleanup cancels every pending animation-frame callback and
timer of the controller, in any reachable state; but cleanup does not make
the controller inert: firing the previously-registered wheel handler after
cleanup leaves the pending set nonempty again, because the handler always
schedules a fresh fragment-update timer (and, when no animation frame handle
is stored, a fresh animation frame). -/
theorem cleanup_cancels_all_pending (cfg : MomentumConfig) (base : ℚ)
    (evts : List ControllerEvt) (e : WheelEvt) :
    (cleanupSched (runController cfg base evts)).pending = [] ∧
    (wheelHandlerSched cfg base (cleanupSched (runController cfg base evts)) e).pending ≠ [] :=
  ⟨cleanupSched_pending_nil (runController cfg base evts) (schedInv_run cfg base evts),
    wheelHandlerSched_pending_ne_nil cfg base
      (cleanupSched (runController cfg base evts)) e⟩

/-- C7 counterexample to the claim as stated: after one wheel event and a
cleanup nothing is pending, yet firing the previously-registered wheel
handler once more schedules a further callback (the fragment-update timer
with handle 2), so a handler fired after dispose does schedule callbacks. -/
theorem cleanup_not_inert_counterexample :
    (runController defaultMomentumConfig 0.2
      [.wheel ⟨1000, -3, false, false, false, false⟩, .cleanup]).pending = [] ∧
    (runController defaultMomentumConfig 0.2
      [.wheel ⟨1000, -3, false, false, false, false⟩, .cleanup,
        .wheel ⟨1010, -3, false, false, false, false⟩]).pending = [2] := by
  constructor <;> rfl
